import Mathlib

/-!
Verification of the financial reconciliation and document-orientation core of
the bank-statement parser (`extract_and_insight.py`, `ocr_gemini.py`).

Shallow embedding conventions:
* Money values and confidence scores are `Rat` (the Python code computes with
  exact small decimals in every behaviour specified here).
* Python `round(x, 2)` (round-half-to-even as in the Python 3 builtin) is `pyRound2`.
* Calendar dates are day numbers (`Int`); `datetime` subtraction `(d2-d1).days`
  is integer subtraction.  A transaction whose `date` or `balance` key is
  missing or unparsable is modelled with `none` in the corresponding field,
  mirroring the `try/except` skip in `compute_average_daily_balance`; a
  balance that is present but non-numeric (which that `try/except` does not
  skip, and which later makes the source raise) lives in the value-level
  model `ADBTxV` with `compute_average_daily_balanceV`.
* A Python function that can return `None` returns an `Option`; a Python
  function that can raise returns an `Except` whose error carries the
  offending operator.
-/

namespace BankCore

/-- Round-half-to-even of a rational to an integer, as Python 3 `round(x)`. -/
def roundHalfEven (q : Rat) : Int :=
  let f : Int := q.floor
  let r : Rat := q - (f : Rat)
  if r < 1/2 then f
  else if r > 1/2 then f + 1
  else if f % 2 = 0 then f else f + 1

/-- Python `round(x, 2)` on exact rationals. -/
def pyRound2 (q : Rat) : Rat := (roundHalfEven (q * 100) : Rat) / 100

/-! ## Average daily balance (`compute_average_daily_balance`) -/

/-- A numeric-domain transaction for the claims about the arithmetic of
`compute_average_daily_balance`: `date = none` models a missing or unparsable
`tx["date"]`, `balance = none` a missing `tx["balance"]` key (both skipped by
the `try/except` in the source).  A balance that is present but non-numeric
(e.g. JSON `null`) is not representable here; the value-level model `ADBTxV`
with `compute_average_daily_balanceV` below covers it together with the
uncaught `TypeError` it triggers, and is proved to agree with this model on
numeric inputs. -/
structure ADBTx where
  date : Option Int
  balance : Option Rat
deriving DecidableEq, Repr

/-- The body of the `try` block at lines 117-120 of `extract_and_insight.py`:
a transaction contributes a `(date, balance)` pair exactly when both parse. -/
def parseTx (t : ADBTx) : Option (Int × Rat) :=
  match t.date, t.balance with
  | some d, some b => some (d, b)
  | _, _ => none

/-- Ordering used by `txs.sort(key=lambda x: x[0])`: compare dates only. -/
def dateLe (a b : Int × Rat) : Prop := a.1 ≤ b.1

instance : DecidableRel dateLe := fun a b => inferInstanceAs (Decidable (a.1 ≤ b.1))

instance : IsTotal (Int × Rat) dateLe := ⟨fun a b => Int.le_total a.1 b.1⟩

instance : IsTrans (Int × Rat) dateLe := ⟨fun _ _ _ h h' => le_trans h h'⟩

/-- The Python `list.sort` is a stable ascending sort; insertion sort with
`dateLe` produces exactly that order. -/
def sortByDate (l : List (Int × Rat)) : List (Int × Rat) := List.insertionSort dateLe l

/-- Date of the last element of a nonempty list (`txs[-1][0]`). -/
def lastDate : (Int × Rat) → List (Int × Rat) → Int
  | p, [] => p.1
  | _, q :: l => lastDate q l

/-- The accumulation loop of lines 125-131: for each consecutive pair the
earlier balance is weighted by `(date - prev_date).days or 1` (Python `or`:
the gap if nonzero, else `1`), and the final balance is added once
unweighted. -/
def weightedSum : (Int × Rat) → List (Int × Rat) → Rat
  | prev, [] => prev.2
  | prev, cur :: rest =>
      prev.2 * (((if cur.1 - prev.1 = 0 then 1 else cur.1 - prev.1) : Int) : Rat)
        + weightedSum cur rest

/-- Source function `compute_average_daily_balance` (lines 110-132 of `extract_and_insight.py`).
`opening_balance = none` models a `None` argument; the result is `none`
exactly when the source returns `None`.  The early source check
`if not txs: return opening_balance` is the `[]` branch of the match (sorting
the empty list is the empty list). -/
def compute_average_daily_balance (transactions : List ADBTx)
    (opening_balance : Option Rat) : Option Rat :=
  if transactions.isEmpty then some (opening_balance.getD 0)
  else
    match sortByDate (transactions.filterMap parseTx) with
    | [] => opening_balance
    | first :: rest =>
        some (pyRound2 (weightedSum first rest
          / (((lastDate first rest - first.1 + 1 : Int)) : Rat)))

/-- Specification-side accumulation: the spec words the per-segment weight as
`max(days_between, 1)` where the source has `days or 1`. -/
def weightedSumSpec : (Int × Rat) → List (Int × Rat) → Rat
  | prev, [] => prev.2
  | prev, cur :: rest =>
      prev.2 * ((max (cur.1 - prev.1) 1 : Int) : Rat) + weightedSumSpec cur rest

/-- The algorithm of spec §4.4 steps 4-8, stated over the already-parsed
`(date, balance)` pairs: sort ascending by date, take the inclusive day span,
weight each balance by `max(gap, 1)`, add the final balance once unweighted,
and round the quotient to two decimals. -/
def computeADB_spec (pairs : List (Int × Rat)) : Option Rat :=
  match sortByDate pairs with
  | [] => none
  | first :: rest =>
      some (pyRound2 (weightedSumSpec first rest
        / (((lastDate first rest - first.1 + 1 : Int)) : Rat)))

/-! ## Duplicate transactions (`detect_duplicate_transactions`) -/

/-- A raw transaction as consumed by `detect_duplicate_transactions`:
`none` in a field models a missing dictionary key (`tx.get(...)` returns
`None`). -/
structure DupTx where
  date : Option String
  amount : Option Rat
  description : Option String
deriving DecidableEq, Repr

/-- The key of line 102: `(tx.get("date"), tx.get("amount"),
(tx.get("description") or "").strip().lower())`. -/
def txKey (t : DupTx) : Option String × Option Rat × String :=
  (t.date, t.amount, ((t.description.getD "").trim.toLower))

/-- The loop of lines 100-106: `seen` is the running set of keys (modelled as
a list with membership), `dups` the running duplicate count. -/
def detectAux (seen : List (Option String × Option Rat × String)) (dups : Nat) :
    List DupTx → Nat
  | [] => dups
  | t :: rest =>
      if txKey t ∈ seen then detectAux seen (dups + 1) rest
      else detectAux (txKey t :: seen) dups rest

/-- Source function `detect_duplicate_transactions` (lines 97-107 of `extract_and_insight.py`). -/
def detect_duplicate_transactions (transactions : List DupTx) : Nat :=
  detectAux [] 0 transactions

/-- Specification-side recursion over normalized keys: count the occurrences
whose key was already seen (the first occurrence of each key is free). -/
def dupSpec (seen : Finset (Option String × Option Rat × String)) :
    List (Option String × Option Rat × String) → Nat
  | [] => 0
  | k :: ks => (if k ∈ seen then 1 else 0) + dupSpec (insert k seen) ks

/-! ## Balance validation (`validate_balances`)

`validate_balances` runs inside a `try/except`; the only possible exception
with dictionary input is a `TypeError` from arithmetic on a non-numeric field.
To keep that branch live we model a summary field as a dynamically typed
Python value. -/

/-- A Python value stored in a summary field: absent/`None`, a number, or a
string (any non-numeric value an extraction model might produce). -/
inductive PyVal where
  | none
  | num (q : Rat)
  | str (s : String)
deriving DecidableEq, Repr

/-- Python truthiness for the values above (`None`, `0` and `""` are falsy). -/
def PyVal.falsy : PyVal → Bool
  | .none => true
  | .num q => q == 0
  | .str s => s == ""

/-- Python `x or 0`: the left operand if truthy, else `0`. -/
def orZero (v : PyVal) : PyVal := if v.falsy then .num 0 else v

/-- Python `+` on summary field values: numbers add, strings concatenate,
anything else raises `TypeError`. -/
def pyAdd : PyVal → PyVal → Except String PyVal
  | .num a, .num b => .ok (.num (a + b))
  | .str a, .str b => .ok (.str (a ++ b))
  | _, _ => .error "unsupported operand type for +"

/-- Python `-` on summary field values: only numbers subtract. -/
def pySub : PyVal → PyVal → Except String PyVal
  | .num a, .num b => .ok (.num (a - b))
  | _, _ => .error "unsupported operand type for -"

/-- Python `round(x, 2)`: only numbers round. -/
def pyRoundV : PyVal → Except String Rat
  | .num q => .ok (pyRound2 q)
  | _ => .error "unsupported operand type for round"

/-- The summary dictionary as read by `validate_balances`; `PyVal.none`
models a missing key. -/
structure Summary where
  opening_balance : PyVal := .none
  total_credits : PyVal := .none
  total_debits : PyVal := .none
  closing_balance : PyVal := .none
deriving DecidableEq, Repr

/-- Injection of an optional number into a field value (`none` models a
missing key, i.e. the only shapes the claim about numeric summaries
quantifies over). -/
def numOrMissing (o : Option Rat) : PyVal :=
  match o with
  | Option.none => PyVal.none
  | Option.some q => PyVal.num q

/-- Python `str()` of a summary field value, for the warning f-string. -/
def pyStr : PyVal → String
  | .none => "None"
  | .num q => toString q
  | .str s => s

/-- The f-string of line 91 of `extract_and_insight.py`. -/
def mismatchMsg (ob tc td : PyVal) (calcv cb : Rat) : String :=
  let o := pyStr ob
  let c := pyStr tc
  let d := pyStr td
  let k := toString calcv
  let b := toString cb
  s!"Balance mismatch: opening({o}) + credits({c}) - debits({d}) = {k}, but closing = {b}."

/-- The f-string of line 93 of `extract_and_insight.py`. -/
def validationErrorMsg (e : String) : String := s!"Balance validation error: {e}"

/-- The body of the `try` block at lines 85-90: read the four fields with
`or 0` defaulting, compute `calc = round(ob + tc - td, 2)` and the difference
`calc - cb`; any `TypeError` along the way aborts with the error message. -/
def validateCalc (s : Summary) : Except String (PyVal × PyVal × PyVal × Rat × Rat) := do
  let ob := orZero s.opening_balance
  let tc := orZero s.total_credits
  let td := orZero s.total_debits
  let cb := orZero s.closing_balance
  let sum ← pyAdd ob tc
  let diff ← pySub sum td
  let calcv ← pyRoundV diff
  match cb with
  | .num cbq => pure (ob, tc, td, calcv, cbq)
  | _ => .error "unsupported operand type for -"

/-- Source function `validate_balances` (lines 80-94 of `extract_and_insight.py`): one
mismatch warning when `abs(calc - cb) > 1.0`, one error warning when the
arithmetic raised, nothing otherwise. -/
def validate_balances (s : Summary) : List String :=
  match validateCalc s with
  | .ok (ob, tc, td, calcv, cb) =>
      if |calcv - cb| > 1 then [mismatchMsg ob tc td calcv cb] else []
  | .error e => [validationErrorMsg e]

/-! ## Average daily balance, value-level model

Unlike a missing `balance` key (a `KeyError` caught by the `try/except` at
lines 117-120), a balance that is present but non-numeric — e.g. JSON `null`,
read as Python `None` — survives the parse step: line 118 appends
`(date, None)` and the accumulation later raises an uncaught `TypeError`
(`total_balance += prev_balance * days` at line 129, or
`total_balance += prev_balance` at line 131).  The numeric model `ADBTx`
above cannot represent that input, so this section re-embeds lines 110-132
over dynamically typed balances; a raised exception is an `Except.error`
carrying the offending operator.  On numeric inputs the two embeddings agree
(proved below), which is why the purely numeric claims are stated over
`ADBTx`. -/

/-- A raw transaction for the value-level model: `date = none` is a missing
or unparsable `tx["date"]` (the `try/except` skips it), `balance = none` a
missing `tx["balance"]` key (`KeyError`, also skipped), and
`balance = some v` a present value `v` of any type — including `PyVal.none`
for JSON `null`, which is not skipped. -/
structure ADBTxV where
  date : Option Int
  balance : Option PyVal
deriving DecidableEq, Repr

/-- Line 118 on value-level transactions: a pair is appended exactly when the
date parses and the balance key is present, whatever its value. -/
def parseTxV (t : ADBTxV) : Option (Int × PyVal) :=
  match t.date, t.balance with
  | some d, some v => some (d, v)
  | _, _ => none

/-- The sort key of line 123 again: only the date is compared. -/
def dateLeV (a b : Int × PyVal) : Prop := a.1 ≤ b.1

instance : DecidableRel dateLeV := fun a b => inferInstanceAs (Decidable (a.1 ≤ b.1))

instance : IsTotal (Int × PyVal) dateLeV := ⟨fun a b => Int.le_total a.1 b.1⟩

instance : IsTrans (Int × PyVal) dateLeV := ⟨fun _ _ _ h h' => le_trans h h'⟩

/-- Stable ascending sort by date, value-level pairs. -/
def sortByDateV (l : List (Int × PyVal)) : List (Int × PyVal) :=
  List.insertionSort dateLeV l

/-- Date of the last element of a nonempty value-level list. -/
def lastDateV : (Int × PyVal) → List (Int × PyVal) → Int
  | p, [] => p.1
  | _, q :: l => lastDateV q l

/-- Python string repetition `s * n` (empty for a non-positive count). -/
def strRepeat (s : String) (n : Int) : String :=
  String.join (List.replicate n.toNat s)

/-- Python `value * days` with an integer day count: numbers multiply,
strings repeat, `None` raises `TypeError`. -/
def pyMulInt : PyVal → Int → Except String PyVal
  | .num q, n => .ok (.num (q * (n : Rat)))
  | .str s, n => .ok (.str (strRepeat s n))
  | .none, _ => .error "unsupported operand type for *"

/-- Python `round(total / days, 2)`: only a numeric total divides. -/
def pyDivRound2 : PyVal → Int → Except String Rat
  | .num q, n => .ok (pyRound2 (q / (n : Rat)))
  | _, _ => .error "unsupported operand type for /"

/-- The accumulation of lines 125-131 over dynamically typed balances:
`total` is `total_balance` (initially the int `0`), each loop step adds
`prev_balance * days`, and the final balance is added once; the first
`TypeError` aborts the run exactly as an uncaught Python exception would. -/
def accumBalance : PyVal → (Int × PyVal) → List (Int × PyVal) → Except String PyVal
  | total, prev, [] => pyAdd total prev.2
  | total, prev, cur :: rest =>
      match pyMulInt prev.2 (if cur.1 - prev.1 = 0 then 1 else cur.1 - prev.1) with
      | .error e => .error e
      | .ok w =>
          match pyAdd total w with
          | .error e => .error e
          | .ok total2 => accumBalance total2 cur rest

/-- Source function `compute_average_daily_balance` (lines 110-132) over
value-level transactions: the result is `.error` exactly when the source
raises an uncaught exception, `.ok` with the returned value otherwise. -/
def compute_average_daily_balanceV (transactions : List ADBTxV)
    (opening_balance : Option Rat) : Except String (Option Rat) :=
  if transactions.isEmpty then .ok (some (opening_balance.getD 0))
  else
    match sortByDateV (transactions.filterMap parseTxV) with
    | [] => .ok opening_balance
    | first :: rest =>
        match accumBalance (.num 0) first rest with
        | .error e => .error e
        | .ok total =>
            match pyDivRound2 total (lastDateV first rest - first.1 + 1) with
            | .error e => .error e
            | .ok q => .ok (some q)

/-- Whether every present balance of a transaction is numeric (the domain on
which the source function cannot raise). -/
def numericBal (t : ADBTxV) : Bool :=
  match t.balance with
  | Option.none => true
  | Option.some (PyVal.num _) => true
  | _ => false

/-- Projection of a value-level transaction to the numeric model: a present
numeric balance is kept, anything else (absent here means it was going to be
skipped or to raise) becomes `none`. -/
def toNumericTx (t : ADBTxV) : ADBTx :=
  ⟨t.date, t.balance.bind fun v => match v with | PyVal.num q => some q | _ => Option.none⟩

/-- Injection of a numeric pair into a value-level pair. -/
def liftPair (p : Int × Rat) : Int × PyVal := (p.1, PyVal.num p.2)

/-! ## Orientation correction (`detect_and_correct_rotation`)

An image is a pixel matrix (rows of abstract pixel values; colour-space
round-trips `RGB2BGR`/`BGR2RGB` are value-preserving bijections and are
modelled as the identity).  The two Tesseract calls are genuinely external and
are modelled as oracle fields of an environment: `osd` is
`int(pytesseract.image_to_osd(...)["rotate"])` (`error` = the call raised),
`conf` is the list of per-token `conf` entries of
`pytesseract.image_to_data(...)` (`error` = that call raised). -/

/-- A page image: a matrix of abstract pixel values. -/
def Img : Type := List (List Rat)

instance : DecidableEq Img := inferInstanceAs (DecidableEq (List (List Rat)))

/-- Rotation `cv2.ROTATE_90_COUNTERCLOCKWISE`. -/
def rot90ccw (m : Img) : Img := (List.map List.reverse m).transpose

/-- Rotation `cv2.ROTATE_180`. -/
def rot180 (m : Img) : Img := (List.map List.reverse m).reverse

/-- Rotation `cv2.ROTATE_90_CLOCKWISE`. -/
def rot90cw (m : Img) : Img := List.map List.reverse m.transpose

/-- The inner `rot` helper of lines 23-27 of `ocr_gemini.py`; it is only ever
applied to the four candidate angles (the final branch, where the Python
helper falls through with `None`, is unreachable in the source). -/
def rot (m : Img) (a : Int) : Img :=
  if a = 0 then m
  else if a = 90 then rot90ccw m
  else if a = 180 then rot180 m
  else if a = 270 then rot90cw m
  else m

/-- The external detectors consumed by `detect_and_correct_rotation`:
`exif` is `ImageOps.exif_transpose` (metadata normalization), `osd` and
`conf` the two Tesseract oracles. -/
structure OcrEnv where
  exif : Img → Img
  osd : Img → Except Unit Int
  conf : Img → Except Unit (List Int)

/-- Source function `osd_angle` (lines 29-35): the OSD rotation if the call succeeded and the
value is one of the four right angles, otherwise `None`. -/
def osd_angle (env : OcrEnv) (img : Img) : Option Int :=
  match env.osd img with
  | .error _ => none
  | .ok a => if a = 0 ∨ a = 90 ∨ a = 180 ∨ a = 270 then some a else none

/-- Source function `avg_conf` (lines 37-43): the mean of the confidence values with the
sentinel `-1` entries excluded; `-1` if none remain or the recognition call
raised. -/
def avg_conf (env : OcrEnv) (img : Img) : Rat :=
  match env.conf img with
  | .error _ => -1
  | .ok cs =>
      let confs := cs.filter (fun c => c ≠ -1)
      if confs.isEmpty then -1
      else ((confs.sum : Int) : Rat) / ((confs.length : Int) : Rat)

/-- Python `max(scores, key=scores.get)` over the insertion-ordered candidate dict:
The Python `max` keeps the first element on ties, so the fold replaces the
current best only on a strictly greater score. -/
def pickBest (first : Int × Rat) (rest : List (Int × Rat)) : Int :=
  (rest.foldl (fun best cur => if cur.2 > best.2 then cur else best) first).1

/-- The candidate rotations, in the insertion order of the `scores` dict. -/
def candidateAngles : List Int := [0, 90, 180, 270]

/-- Score of one candidate rotation: rotate the (metadata-normalized) image
and run the confidence pass (lines 48-50). -/
def candScore (env : OcrEnv) (img1 : Img) (a : Int) : Rat := avg_conf env (rot img1 a)

/-- The value of the `angle` variable after lines 45-51: the OSD result when
available, otherwise the best-scoring of the four candidate rotations. -/
def appliedAngle (env : OcrEnv) (pil : Img) : Int :=
  let img1 := env.exif pil
  match osd_angle env img1 with
  | some a => a
  | none =>
      pickBest (0, candScore env img1 0)
        [(90, candScore env img1 90), (180, candScore env img1 180),
         (270, candScore env img1 270)]

/-- Source function `detect_and_correct_rotation` (lines 18-58 of `ocr_gemini.py`): normalize
metadata, resolve the angle, rotate when it is nonzero (`if angle and
angle != 0`), and return the corrected image — the applied angle is printed,
not returned. -/
def detect_and_correct_rotation (env : OcrEnv) (pil : Img) : Img :=
  let img1 := env.exif pil
  let angle := appliedAngle env pil
  if angle ≠ 0 then rot img1 angle else img1

/-- Position of a candidate in the insertion order `{0, 90, 180, 270}`. -/
def angIdx (a : Int) : Nat :=
  if a = 0 then 0 else if a = 90 then 1 else if a = 180 then 2 else 3

/-- Concrete environment whose primary (OSD) detector always answers `a` and
whose confidence pass always raises; used to exhibit concrete runs. -/
def osdEnv (a : Int) : OcrEnv := ⟨id, fun _ => .ok a, fun _ => .error ()⟩

/-! ## Theorems -/

lemma weightedSum_eq_spec : ∀ (l : List (Int × Rat)) (p : Int × Rat),
    List.Chain' dateLe (p :: l) → weightedSum p l = weightedSumSpec p l := by
  intro l
  induction l with
  | nil => intro p _; rfl
  | cons q l ih =>
    intro p hc
    rw [List.chain'_cons] at hc
    obtain ⟨hpq, hq⟩ := hc
    have hle : p.1 ≤ q.1 := hpq
    have hw : (if q.1 - p.1 = 0 then (1 : Int) else q.1 - p.1) = max (q.1 - p.1) 1 := by
      split_ifs with h0 <;> omega
    simp only [weightedSum, weightedSumSpec, hw, ih q hq]

lemma chain'_sortByDate (l : List (Int × Rat)) : List.Chain' dateLe (sortByDate l) :=
  List.chain'_iff_pairwise.mpr (List.sorted_insertionSort dateLe l)

lemma sortByDate_ne_nil {l : List (Int × Rat)} (h : l ≠ []) : sortByDate l ≠ [] := by
  intro hs
  exact h (List.Perm.eq_nil ((List.perm_insertionSort dateLe l).symm.trans (hs ▸ List.Perm.refl _)))

lemma filterMap_parseTx_filter (txs : List ADBTx) :
    (txs.filter fun t => (parseTx t).isSome).filterMap parseTx = txs.filterMap parseTx := by
  induction txs with
  | nil => rfl
  | cons t rest ih =>
    cases h : parseTx t with
    | none => simp [List.filter, List.filterMap, h, ih]
    | some p => simp [List.filter, List.filterMap, h, ih]

/-- C1: with a non-empty transaction list in which at least one date parses,
`compute_average_daily_balance` realises exactly the spec algorithm
(stable ascending sort by date, inclusive day span, per-segment weights
`max(days_between, 1)`, final balance added once unweighted, result rounded
to two decimals); on opening balance 42000 with transactions
(day 1, 72000), (day 10, 38500) it returns 68650.0; a single transaction
returns the (two-decimal) balance of that transaction. -/
theorem adb_time_weighted_spec :
    (∀ (txs : List ADBTx) (ob : Option Rat), txs ≠ [] →
        txs.filterMap parseTx ≠ [] →
        compute_average_daily_balance txs ob = computeADB_spec (txs.filterMap parseTx)) ∧
    compute_average_daily_balance
        [⟨some 1, some 72000⟩, ⟨some 10, some 38500⟩] (some 42000) = some 68650 ∧
    (∀ (d : Int) (b : Rat) (ob : Option Rat), pyRound2 b = b →
        compute_average_daily_balance [⟨some d, some b⟩] ob = some b) := by
  refine ⟨?_, by with_unfolding_all rfl, ?_⟩
  · intro txs ob hne hp
    unfold compute_average_daily_balance computeADB_spec
    rw [if_neg (by simpa using hne)]
    cases hs : sortByDate (txs.filterMap parseTx) with
    | nil => exact absurd hs (sortByDate_ne_nil hp)
    | cons f r =>
      have hchain : List.Chain' dateLe (f :: r) := hs ▸ chain'_sortByDate _
      dsimp only
      rw [weightedSum_eq_spec r f hchain]
  · intro d b ob hrb
    unfold compute_average_daily_balance
    simp only [List.isEmpty_cons, if_neg, List.filterMap, parseTx, sortByDate,
      List.insertionSort, List.orderedInsert, weightedSum, lastDate, Bool.false_eq_true,
      ite_false]
    norm_num
    exact hrb

/-- Witness for the hypotheses of `adb_time_weighted_spec`. -/
theorem adb_time_weighted_spec_witness :
    compute_average_daily_balance [⟨some 3, some 150⟩] (some 9)
        = computeADB_spec ([⟨(some 3 : Option Int), some (150 : Rat)⟩].filterMap parseTx) ∧
    compute_average_daily_balance [⟨some 4, some 125⟩] none = some 125 :=
  ⟨adb_time_weighted_spec.1 [⟨some 3, some 150⟩] (some 9) (by decide)
      (by decide),
   adb_time_weighted_spec.2.2 4 125 none (by with_unfolding_all rfl)⟩

lemma filterMap_parseTxV_filter (txs : List ADBTxV) :
    (txs.filter fun t => (parseTxV t).isSome).filterMap parseTxV
      = txs.filterMap parseTxV := by
  induction txs with
  | nil => rfl
  | cons t rest ih =>
    cases h : parseTxV t with
    | none => simp [List.filter, List.filterMap, h, ih]
    | some p => simp [List.filter, List.filterMap, h, ih]

lemma sortByDateV_ne_nil {l : List (Int × PyVal)} (h : l ≠ []) : sortByDateV l ≠ [] := by
  intro hs
  exact h (List.Perm.eq_nil
    ((List.perm_insertionSort dateLeV l).symm.trans (hs ▸ List.Perm.refl _)))

lemma filterMap_parseTxV_numeric : ∀ txs : List ADBTxV, txs.all numericBal = true →
    txs.filterMap parseTxV = ((txs.map toNumericTx).filterMap parseTx).map liftPair := by
  intro txs
  induction txs with
  | nil => intro _; rfl
  | cons t rest ih =>
    intro hall
    rw [List.all_cons, Bool.and_eq_true] at hall
    obtain ⟨ht, hrest⟩ := hall
    have htail := ih hrest
    obtain ⟨d, b⟩ := t
    cases d with
    | none => simpa [List.filterMap, List.map, parseTxV, toNumericTx, parseTx] using htail
    | some dv =>
      cases b with
      | none => simpa [List.filterMap, List.map, parseTxV, toNumericTx, parseTx] using htail
      | some v =>
        cases v with
        | num q =>
          simpa [List.filterMap, List.map, parseTxV, toNumericTx, parseTx, liftPair]
            using htail
        | str s => simp [numericBal] at ht
        | none => simp [numericBal] at ht

lemma sortByDateV_map (l : List (Int × Rat)) :
    sortByDateV (l.map liftPair) = (sortByDate l).map liftPair := by
  rw [sortByDate, sortByDateV]
  exact (List.map_insertionSort (r := dateLe) (s := dateLeV) liftPair l
    (fun a _ b _ => Iff.rfl)).symm

lemma lastDateV_map : ∀ (l : List (Int × Rat)) (p : Int × Rat),
    lastDateV (liftPair p) (l.map liftPair) = lastDate p l := by
  intro l
  induction l with
  | nil => intro p; rfl
  | cons q rest ih => intro p; simpa [List.map, lastDateV, lastDate] using ih q

lemma accumBalance_num : ∀ (l : List (Int × Rat)) (p : Int × Rat) (c : Rat),
    accumBalance (.num c) (liftPair p) (l.map liftPair)
      = .ok (.num (c + weightedSum p l)) := by
  intro l
  induction l with
  | nil => intro p c; rfl
  | cons cur rest ih =>
    intro p c
    simp only [List.map, accumBalance, liftPair, pyMulInt, pyAdd, weightedSum]
    rw [show ((cur.1, PyVal.num cur.2) : Int × PyVal) = liftPair cur from rfl, ih cur,
      add_assoc]

/-- Counterexample to C6 as stated: a transaction whose date parses and whose
balance key is present with value `None` (JSON `null`) is not discarded by the
`try/except` (line 118 appends `(date, None)`), and the accumulation then
raises an uncaught `TypeError` at `total_balance += prev_balance` — so
`compute_average_daily_balance` does raise for this input. -/
theorem adb_null_balance_raises :
    parseTxV ⟨some 1, some PyVal.none⟩ = some (1, PyVal.none) ∧
    compute_average_daily_balanceV [⟨some 1, some PyVal.none⟩] (some 0)
      = .error "unsupported operand type for +" := by
  exact ⟨rfl, by with_unfolding_all rfl⟩

/-- C6 (amended): on every input whose present balances are numeric,
`compute_average_daily_balance` raises no exception and agrees with the
numeric-domain embedding; unconditionally, an empty transaction list returns
the opening balance (0 for an absent one), a non-empty list in which every
transaction was discarded returns the opening balance as-is, and a
transaction whose date cannot be parsed is silently discarded without
aborting the computation (dropping such transactions never changes the
outcome, not even an error outcome). -/
theorem adb_error_handling_on_numeric :
    (∀ (txs : List ADBTxV) (ob : Option Rat), txs.all numericBal = true →
        compute_average_daily_balanceV txs ob
          = .ok (compute_average_daily_balance (txs.map toNumericTx) ob)) ∧
    (∀ ob : Option Rat, compute_average_daily_balanceV [] ob = .ok (some (ob.getD 0))) ∧
    (∀ (txs : List ADBTxV) (ob : Option Rat), txs ≠ [] →
        txs.filterMap parseTxV = [] → compute_average_daily_balanceV txs ob = .ok ob) ∧
    (∀ (txs : List ADBTxV) (ob : Option Rat), txs.filterMap parseTxV ≠ [] →
        compute_average_daily_balanceV txs ob
          = compute_average_daily_balanceV
              (txs.filter fun t => (parseTxV t).isSome) ob) := by
  refine ⟨?_, fun ob => rfl, ?_, ?_⟩
  · intro txs ob hnum
    cases txs with
    | nil => rfl
    | cons t rest =>
      unfold compute_average_daily_balanceV compute_average_daily_balance
      rw [if_neg (by simp), if_neg (by simp)]
      rw [filterMap_parseTxV_numeric _ hnum, sortByDateV_map]
      cases hs : sortByDate (((t :: rest).map toNumericTx).filterMap parseTx) with
      | nil => rfl
      | cons f r =>
        simp only [List.map]
        rw [accumBalance_num r f 0, lastDateV_map r f]
        simp only [liftPair, pyDivRound2, zero_add]
  · intro txs ob hne hp
    unfold compute_average_daily_balanceV
    rw [if_neg (by simpa using hne), hp]
    rfl
  · intro txs ob hp
    have htne : txs ≠ [] := by
      intro h; exact hp (by simp [h])
    have hfne : (txs.filter fun t => (parseTxV t).isSome) ≠ [] := by
      intro h
      exact hp (by rw [← filterMap_parseTxV_filter txs, h]; rfl)
    unfold compute_average_daily_balanceV
    rw [if_neg (by simpa using htne), if_neg (by simpa using hfne),
      filterMap_parseTxV_filter txs]

/-- Witness for the hypotheses of `adb_error_handling_on_numeric`. -/
theorem adb_error_handling_on_numeric_witness :
    compute_average_daily_balanceV [⟨some 1, some (PyVal.num 2)⟩] (some 3)
      = .ok (compute_average_daily_balance
          (([⟨some 1, some (PyVal.num 2)⟩] : List ADBTxV).map toNumericTx) (some 3)) ∧
    compute_average_daily_balanceV [⟨none, some (PyVal.num 5)⟩] (some 7) = .ok (some 7) ∧
    compute_average_daily_balanceV [⟨some 1, some (PyVal.num 2)⟩, ⟨none, none⟩] none
      = compute_average_daily_balanceV
          (([⟨some 1, some (PyVal.num 2)⟩, ⟨none, none⟩] : List ADBTxV).filter
            fun t => (parseTxV t).isSome) none :=
  ⟨adb_error_handling_on_numeric.1 [⟨some 1, some (PyVal.num 2)⟩] (some 3) (by decide),
   adb_error_handling_on_numeric.2.2.1 [⟨none, some (PyVal.num 5)⟩] (some 7)
     (by decide) (by decide),
   adb_error_handling_on_numeric.2.2.2 [⟨some 1, some (PyVal.num 2)⟩, ⟨none, none⟩] none
     (by decide)⟩

/-- C9: once at least one transaction has a parseable date, the opening
balance argument does not influence the result at all. -/
theorem adb_opening_balance_irrelevant :
    ∀ (txs : List ADBTx) (ob₁ ob₂ : Option Rat), txs.filterMap parseTx ≠ [] →
      compute_average_daily_balance txs ob₁ = compute_average_daily_balance txs ob₂ := by
  intro txs ob₁ ob₂ hp
  have htne : txs ≠ [] := by
    intro h; exact hp (by simp [h])
  unfold compute_average_daily_balance
  rw [if_neg (by simpa using htne), if_neg (by simpa using htne)]
  cases hs : sortByDate (txs.filterMap parseTx) with
  | nil => exact absurd hs (sortByDate_ne_nil hp)
  | cons f r => rfl

/-- Witness for the hypothesis of `adb_opening_balance_irrelevant`. -/
theorem adb_opening_balance_irrelevant_witness :
    compute_average_daily_balance [⟨some 1, some 2⟩] (some 3)
      = compute_average_daily_balance [⟨some 1, some 2⟩] none :=
  adb_opening_balance_irrelevant [⟨some 1, some 2⟩] (some 3) none (by decide)

/-- C10: with two same-day transactions of balance 100 and opening balance 0
the day-weights sum to 2 over a 1-day span (the same-day segment is weighted
`1` and the final balance is added once more), so the result 200.0 strictly
exceeds every transaction balance and the opening balance. -/
theorem adb_same_day_overweight :
    compute_average_daily_balance [⟨some 5, some 100⟩, ⟨some 5, some 100⟩] (some 0)
      = some 200 ∧
    lastDate (5, (100 : Rat)) [(5, 100)] - 5 + 1 = 1 ∧
    weightedSum (5, (1 : Rat)) [(5, 1)] = 2 ∧
    (100 : Rat) < 200 ∧ (0 : Rat) < 200 := by
  refine ⟨by with_unfolding_all rfl, by decide, by with_unfolding_all rfl, by norm_num,
    by norm_num⟩

lemma detectAux_eq_dupSpec : ∀ (l : List DupTx)
    (seen : List (Option String × Option Rat × String)) (d : Nat),
    detectAux seen d l = d + dupSpec seen.toFinset (l.map txKey) := by
  intro l
  induction l with
  | nil => intro seen d; simp [detectAux, dupSpec]
  | cons t rest ih =>
    intro seen d
    simp only [detectAux, List.map]
    by_cases h : txKey t ∈ seen
    · rw [if_pos h, ih]
      have hm : txKey t ∈ seen.toFinset := List.mem_toFinset.mpr h
      simp only [dupSpec, if_pos hm, Finset.insert_eq_self.mpr hm]
      omega
    · rw [if_neg h, ih]
      have hm : txKey t ∉ seen.toFinset := fun hc => h (List.mem_toFinset.mp hc)
      simp only [dupSpec, if_neg hm, List.toFinset_cons]
      omega

lemma dupSpec_card : ∀ (ks : List (Option String × Option Rat × String))
    (s : Finset (Option String × Option Rat × String)),
    dupSpec s ks = ks.length - ((s ∪ ks.toFinset).card - s.card) := by
  intro ks
  induction ks with
  | nil => intro s; simp [dupSpec]
  | cons k ks ih =>
    intro s
    have hlen : ks.toFinset.card ≤ ks.length := List.toFinset_card_le ks
    simp only [dupSpec, List.length_cons, List.toFinset_cons]
    by_cases h : k ∈ s
    · rw [if_pos h, ih, Finset.insert_eq_self.mpr h, Finset.union_insert,
        Finset.insert_eq_self.mpr (Finset.mem_union_left _ h)]
      have hsub : s.card ≤ (s ∪ ks.toFinset).card :=
        Finset.card_le_card Finset.subset_union_left
      have hsub2 : (s ∪ ks.toFinset).card ≤ s.card + ks.toFinset.card :=
        Finset.card_union_le _ _
      omega
    · rw [if_neg h, ih, Finset.insert_union, Finset.union_insert,
        Finset.card_insert_of_not_mem h]
      have h1 : (insert k (s ∪ ks.toFinset)).card ≤ (s ∪ ks.toFinset).card + 1 :=
        Finset.card_insert_le _ _
      have h2 : (s ∪ ks.toFinset).card ≤ s.card + ks.toFinset.card :=
        Finset.card_union_le _ _
      have h3 : s.card + 1 ≤ (insert k (s ∪ ks.toFinset)).card := by
        have hsub : insert k s ⊆ insert k (s ∪ ks.toFinset) :=
          Finset.insert_subset_insert _ Finset.subset_union_left
        have := Finset.card_le_card hsub
        simpa [Finset.card_insert_of_not_mem h] using this
      have h4 : (s ∪ ks.toFinset).card ≤ (insert k (s ∪ ks.toFinset)).card :=
        Finset.card_le_card (Finset.subset_insert _ _)
      omega

lemma detect_closed (l : List DupTx) :
    detect_duplicate_transactions l = l.length - (l.map txKey).toFinset.card := by
  rw [detect_duplicate_transactions, detectAux_eq_dupSpec, dupSpec_card]
  simp

/-- C3: the duplicate count never charges the first occurrence of a
normalized key and charges every subsequent occurrence: appending a
transaction increments the count exactly when its key
(date, amount, trimmed lower-cased description, missing description read as
`""`) already occurs, and the worked example
[(2025-09-01, 100, "rent"), (2025-09-01, 100, "RENT "), (2025-09-02, 50,
"food")] counts exactly 1 duplicate. -/
theorem duplicate_count_first_free :
    (∀ (l : List DupTx) (t : DupTx),
        detect_duplicate_transactions (l ++ [t])
          = detect_duplicate_transactions l
            + (if txKey t ∈ l.map txKey then 1 else 0)) ∧
    detect_duplicate_transactions [] = 0 ∧
    detect_duplicate_transactions
      [⟨some "2025-09-01", some 100, some "rent"⟩,
       ⟨some "2025-09-01", some 100, some "RENT "⟩,
       ⟨some "2025-09-02", some 50, some "food"⟩] = 1 := by
  refine ⟨?_, rfl, by with_unfolding_all rfl⟩
  intro l t
  rw [detect_closed, detect_closed, List.map_append, List.toFinset_append,
    List.length_append]
  have hlen : (l.map txKey).toFinset.card ≤ l.length := by
    simpa using List.toFinset_card_le (l.map txKey)
  simp only [List.map, List.toFinset_cons, List.toFinset_nil]
  rw [Finset.union_insert, Finset.union_empty]
  by_cases h : txKey t ∈ l.map txKey
  · rw [if_pos h, Finset.insert_eq_self.mpr (List.mem_toFinset.mpr h)]
    simp only [List.length_singleton]
    omega
  · rw [if_neg h,
      Finset.card_insert_of_not_mem (fun hc => h (List.mem_toFinset.mp hc))]
    simp only [List.length_singleton]
    omega

/-- C8: the duplicate count is invariant under every permutation of the
transaction list (only which occurrence is "first" is order-dependent, not
the count). -/
theorem duplicate_count_perm_invariant :
    ∀ (l₁ l₂ : List DupTx), l₁.Perm l₂ →
      detect_duplicate_transactions l₁ = detect_duplicate_transactions l₂ := by
  intro l₁ l₂ hp
  rw [detect_closed, detect_closed, hp.length_eq,
    List.toFinset_eq_of_perm _ _ (hp.map txKey)]

/-- Witness for the permutation hypothesis of
`duplicate_count_perm_invariant`. -/
theorem duplicate_count_perm_invariant_witness :
    detect_duplicate_transactions
      [⟨some "2025-09-01", some 100, some "rent"⟩, ⟨some "2025-09-02", some 50, some "food"⟩]
      = detect_duplicate_transactions
        [⟨some "2025-09-02", some 50, some "food"⟩, ⟨some "2025-09-01", some 100, some "rent"⟩] :=
  duplicate_count_perm_invariant _ _ (List.Perm.swap _ _ [])

lemma orZero_numOrMissing (o : Option Rat) :
    orZero (numOrMissing o) = .num (o.getD 0) := by
  cases o with
  | none => rfl
  | some q =>
    simp only [numOrMissing, orZero, PyVal.falsy, Option.getD_some]
    by_cases hq : q = 0
    · subst hq; simp
    · simp [hq]

lemma validateCalc_num (ob tc td cb : Option Rat) :
    validateCalc ⟨numOrMissing ob, numOrMissing tc, numOrMissing td, numOrMissing cb⟩
      = .ok (.num (ob.getD 0), .num (tc.getD 0), .num (td.getD 0),
          pyRound2 (ob.getD 0 + tc.getD 0 - td.getD 0), cb.getD 0) := by
  simp only [validateCalc, orZero_numOrMissing]
  rfl

/-- C2: on a summary whose four numeric fields are each present or missing,
`validate_balances` treats a missing field as 0, computes
`calculated = round(opening + credits - debits, 2)` and emits exactly one
warning carrying the four operand values and the computed-vs-actual closing
values precisely when `abs(calculated - closing) > 1.00`; in particular
opening 42000, credits 30000, debits 33500 gives no warning against closing
38500 and exactly one warning against closing 38000. -/
theorem validate_balances_warning_iff :
    (∀ ob tc td cb : Option Rat,
        validate_balances
            ⟨numOrMissing ob, numOrMissing tc, numOrMissing td, numOrMissing cb⟩
          = if 1 < |pyRound2 (ob.getD 0 + tc.getD 0 - td.getD 0) - cb.getD 0| then
              [mismatchMsg (.num (ob.getD 0)) (.num (tc.getD 0)) (.num (td.getD 0))
                (pyRound2 (ob.getD 0 + tc.getD 0 - td.getD 0)) (cb.getD 0)]
            else []) ∧
    validate_balances ⟨.num 42000, .num 30000, .num 33500, .num 38500⟩ = [] ∧
    (validate_balances ⟨.num 42000, .num 30000, .num 33500, .num 38000⟩).length = 1 := by
  refine ⟨?_, by with_unfolding_all rfl, by with_unfolding_all rfl⟩
  intro ob tc td cb
  simp only [validate_balances, validateCalc_num]

/-- C7: `validate_balances` is total (it never raises); whenever the guarded
arithmetic fails — e.g. a non-numeric field — the failure surfaces as exactly
one descriptive warning string in the returned list. -/
theorem validate_balances_never_raises :
    ∀ (s : Summary) (e : String), validateCalc s = .error e →
      validate_balances s = [validationErrorMsg e]
        ∧ (validate_balances s).length = 1 := by
  intro s e h
  refine ⟨?_, ?_⟩ <;> simp only [validate_balances, h, List.length_singleton]

/-- Witness for the hypothesis of `validate_balances_never_raises`: a summary
with a string-valued opening balance produces exactly the error warning. -/
theorem validate_balances_never_raises_witness :
    validate_balances ⟨.str "N/A", .none, .none, .none⟩
      = [validationErrorMsg "unsupported operand type for +"] :=
  (validate_balances_never_raises ⟨.str "N/A", .none, .none, .none⟩
    "unsupported operand type for +" (by with_unfolding_all rfl)).1

lemma pickBest4 (s : Int → Rat) :
    pickBest (0, s 0) [(90, s 90), (180, s 180), (270, s 270)] ∈ candidateAngles ∧
    (∀ a ∈ candidateAngles,
        s a ≤ s (pickBest (0, s 0) [(90, s 90), (180, s 180), (270, s 270)])) ∧
    (∀ a ∈ candidateAngles,
        angIdx a < angIdx (pickBest (0, s 0) [(90, s 90), (180, s 180), (270, s 270)]) →
          s a < s (pickBest (0, s 0) [(90, s 90), (180, s 180), (270, s 270)])) := by
  simp only [pickBest, List.foldl]
  split_ifs
  all_goals refine ⟨by simp [candidateAngles], fun a ha => ?_, fun a ha hidx => ?_⟩
  all_goals simp only [candidateAngles, List.mem_cons, List.not_mem_nil, or_false] at ha
  all_goals rcases ha with rfl | rfl | rfl | rfl
  all_goals dsimp only at *
  all_goals first
    | linarith
    | exact absurd hidx (by decide)

lemma appliedAngle_osd_none {env : OcrEnv} {img : Img}
    (hosd : osd_angle env (env.exif img) = none) :
    appliedAngle env img
      = pickBest (0, candScore env (env.exif img) 0)
          [(90, candScore env (env.exif img) 90), (180, candScore env (env.exif img) 180),
           (270, candScore env (env.exif img) 270)] := by
  simp only [appliedAngle, candScore, hosd]

/-- C4: when the primary (OSD) detector is unavailable, each of the four
candidate rotations is scored by the mean recognition confidence with the
sentinel `-1` values excluded (`-1` for a candidate with no recognized tokens
or whose confidence pass raises), and the resolved angle is a candidate of
maximum score, with ties going to the earliest candidate in the order
`{0, 90, 180, 270}`. -/
theorem fallback_rotation_scoring :
    ∀ (env : OcrEnv) (img : Img), osd_angle env (env.exif img) = none →
      (∀ i : Img, (env.conf i = .error () → avg_conf env i = -1) ∧
        (∀ cs : List Int, env.conf i = .ok cs →
          avg_conf env i
            = if (cs.filter fun c => c ≠ -1).isEmpty then -1
              else (((cs.filter fun c => c ≠ -1).sum : Int) : Rat)
                  / (((cs.filter fun c => c ≠ -1).length : Int) : Rat))) ∧
      appliedAngle env img ∈ candidateAngles ∧
      (∀ a ∈ candidateAngles,
          candScore env (env.exif img) a
            ≤ candScore env (env.exif img) (appliedAngle env img)) ∧
      (∀ a ∈ candidateAngles,
          candScore env (env.exif img) a
              = candScore env (env.exif img) (appliedAngle env img) →
            angIdx (appliedAngle env img) ≤ angIdx a) := by
  intro env img hosd
  obtain ⟨hmem, hmax, htie⟩ := pickBest4 (fun a => candScore env (env.exif img) a)
  refine ⟨?_, ?_, ?_, ?_⟩
  · intro i
    refine ⟨fun he => by simp [avg_conf, he], fun cs hcs => ?_⟩
    simp only [avg_conf, hcs]
  · rw [appliedAngle_osd_none hosd]; exact hmem
  · intro a ha; rw [appliedAngle_osd_none hosd]; exact hmax a ha
  · intro a ha heq
    rw [appliedAngle_osd_none hosd] at heq ⊢
    by_contra hlt
    push_neg at hlt
    exact absurd heq (ne_of_lt (htie a ha hlt))

/-- Witness for the hypothesis of `fallback_rotation_scoring`: an environment
whose OSD call raises on the blank image. -/
theorem fallback_rotation_scoring_witness :
    appliedAngle ⟨id, fun _ => .error (), fun _ => .error ()⟩ [[0]] ∈ candidateAngles :=
  (fallback_rotation_scoring ⟨id, fun _ => .error (), fun _ => .error ()⟩ [[0]] rfl).2.1

/-- C5 (amended): `detect_and_correct_rotation` is total (never raises) but
returns only the corrected image — the applied angle is not part of the
return value.  With the primary detector unavailable: an exception in the
confidence pass of a candidate scores it `-1` and it is never selected while
any candidate scores non-negatively; if all four candidates score `-1`
(e.g. a blank page with no recognized tokens) the unrotated
(metadata-normalized) image is returned and the internal angle is `0`. -/
theorem rotation_resolver_failure_semantics :
    ∀ (env : OcrEnv) (img : Img), osd_angle env (env.exif img) = none →
      (∀ a ∈ candidateAngles, env.conf (rot (env.exif img) a) = .error () →
          candScore env (env.exif img) a = -1 ∧
          ∀ b ∈ candidateAngles, 0 ≤ candScore env (env.exif img) b →
            appliedAngle env img ≠ a) ∧
      ((∀ a ∈ candidateAngles, candScore env (env.exif img) a = -1) →
          detect_and_correct_rotation env img = env.exif img
            ∧ appliedAngle env img = 0) := by
  intro env img hosd
  obtain ⟨hmem, hmax, htie⟩ := pickBest4 (fun a => candScore env (env.exif img) a)
  constructor
  · intro a ha herr
    have hsa : candScore env (env.exif img) a = -1 := by
      simp [candScore, avg_conf, herr]
    refine ⟨hsa, fun b hb hge heqa => ?_⟩
    have h1 := hmax b hb
    rw [← appliedAngle_osd_none hosd, heqa, hsa] at h1
    linarith
  · intro hall
    have hangle : appliedAngle env img = 0 := by
      rw [appliedAngle_osd_none hosd, hall 0 (by decide), hall 90 (by decide),
        hall 180 (by decide), hall 270 (by decide)]
      norm_num [pickBest, List.foldl]
    exact ⟨by simp only [detect_and_correct_rotation, hangle]; simp, hangle⟩

/-- Witness for the hypotheses of `rotation_resolver_failure_semantics`: with
every oracle raising (a blank page), angle 0 is applied and the image is
returned unrotated. -/
theorem rotation_resolver_failure_semantics_witness :
    detect_and_correct_rotation ⟨id, fun _ => .error (), fun _ => .error ()⟩ [[0]] = [[0]]
      ∧ appliedAngle ⟨id, fun _ => .error (), fun _ => .error ()⟩ [[0]] = 0 :=
  (rotation_resolver_failure_semantics ⟨id, fun _ => .error (), fun _ => .error ()⟩ [[0]]
    rfl).2 (fun a _ => by simp [candScore, avg_conf])

/-- Counterexample to C5 as stated: the spec contract
`resolve(image) -> (correctedImage, angleApplied)` does not hold of the code,
which returns only the corrected image (`return rotated_pil`).  Two runs on a
rotation-symmetric 1x1 page that apply different angles (90 vs 0, driven by
the primary detector) return equal values, so the return value cannot
contain the applied angle: had the function returned the claimed pair, the
two results would differ. -/
theorem rotation_resolver_no_angle_returned :
    detect_and_correct_rotation (osdEnv 90) [[5]]
        = detect_and_correct_rotation (osdEnv 0) [[5]] ∧
    appliedAngle (osdEnv 90) [[5]] = 90 ∧
    appliedAngle (osdEnv 0) [[5]] = 0 ∧
    (detect_and_correct_rotation (osdEnv 90) [[5]], appliedAngle (osdEnv 90) [[5]])
      ≠ (detect_and_correct_rotation (osdEnv 0) [[5]], appliedAngle (osdEnv 0) [[5]]) := by
  refine ⟨by decide, by decide, by decide, by decide⟩

end BankCore
